import Mathlib

/-!
Shallow embedding of the transactional data-access core of the chat backend
(`src/controller/Controller.js`, `src/integration/ChatDAO.js`,
`src/drizzle/schema.js`), together with models of the validation utility and
the DTO constructors, which are described by the specification but whose
source files are not part of the repository snapshot.

Conventions of the embedding:
* JS timestamps (milliseconds since the epoch) are `Int`; a nullable
  timestamp column is `Option Int` with `none` for SQL `NULL`.
* Fallible JS code returns `Except JsError`; a thrown error is `.error`.
* The relational store is an explicit `Store` value; the two tables are
  lists of rows in insertion order, with `serial` id counters.
* Each DAO method performs exactly one query; the possibility that the
  underlying store fails during that query is modelled by an extra
  `Option BaseError` argument: `some e` means the query throws `e`.
* `db.transaction` (drizzle) rolls the state back when the body throws;
  this is the `transact` combinator.
-/

/-- Milliseconds since the Unix epoch, the value of a JS `Date`. -/
abbrev Time := Int

/-- An error as first thrown: a validator `AssertionError` naming the
offending parameter, or an error raised by the underlying store. -/
inductive BaseError where
  | assertionError (param : String) (msg : String)
  | storeError (code : Nat)
deriving DecidableEq

/-- An error as seen by a caller: either a base error propagating unmodified,
or a `WError` domain error built by a DAO catch block, carrying the `info`
object (key/value pairs: operation context and parameter values) and
optionally the original error as its cause. -/
inductive JsError where
  | base (e : BaseError)
  | domainError (info : List (String × String)) (cause : Option BaseError)
deriving DecidableEq

/-- Is the error a DAO-wrapped domain error (rather than a raw error)? -/
def JsError.isWrapped : JsError → Bool
  | .base _ => false
  | .domainError _ _ => true

/-- A row of the `users` table (schema.js): serial id, username,
`loggedInUntil` defaulted to the epoch, store-managed timestamps, nullable
`deletedAt` marking soft deletion. -/
structure UserRow where
  id : Int
  username : String
  loggedInUntil : Option Time
  createdAt : Time
  updatedAt : Time
  deletedAt : Option Time
deriving DecidableEq

/-- A row of the `msgs` table (schema.js): serial id, text, `userId`
foreign key referencing `users.id`, store-managed timestamps, nullable
`deletedAt`. -/
structure MsgRow where
  id : Int
  msg : String
  userId : Int
  createdAt : Time
  updatedAt : Time
  deletedAt : Option Time
deriving DecidableEq

/-- The relational store: both tables in insertion order plus the next
value of each `serial` id sequence. -/
structure Store where
  users : List UserRow
  msgs : List MsgRow
  nextUserId : Int
  nextMsgId : Int
deriving DecidableEq

/-- The immutable user data-transfer object (UserDTO.js holds exactly the
persisted fields). -/
structure UserDTO where
  id : Int
  username : String
  loggedInUntil : Option Time
  createdAt : Time
  updatedAt : Time
  deletedAt : Option Time
deriving DecidableEq

/-- The immutable message data-transfer object (MsgDTO.js: id, author DTO,
text, timestamps). -/
structure MsgDTO where
  id : Int
  author : UserDTO
  msg : String
  createdAt : Time
  updatedAt : Time
  deletedAt : Option Time
deriving DecidableEq

/-- A dynamically-typed JS argument in a position where the code expects a
`UserDTO` instance: either an actual `UserDTO` or any other value. -/
inductive JsValue where
  | userDto (u : UserDTO)
  | other (tag : String)
deriving DecidableEq

/-- Modelled from the spec: `Validators.js` is not in the repository
snapshot. §4.1 — asserts a non-zero-length string, failing with an
`AssertionError`-kind error naming the offending parameter. -/
def Validators.isNonZeroLengthString (s : String) (name : String) :
    Except JsError Unit :=
  if s.length > 0 then .ok ()
  else .error (.base (.assertionError name "must be a non-zero length string"))

/-- Modelled from the spec: §4.1 — asserts a string contains only
alphanumeric characters. -/
def Validators.isAlnumString (s : String) (name : String) :
    Except JsError Unit :=
  if s.data.all Char.isAlphanum then .ok ()
  else .error (.base (.assertionError name "must consist of letters and numbers"))

/-- Modelled from the spec: §4.1 — asserts a positive integer. -/
def Validators.isPositiveInteger (n : Int) (name : String) :
    Except JsError Unit :=
  if 0 < n then .ok ()
  else .error (.base (.assertionError name "must be a positive integer"))

/-- Modelled from the spec: §4.1 — asserts the value is an instance of
`UserDTO`; on success the typed value is available to the caller. -/
def Validators.isInstanceOfUserDTO (v : JsValue) (name : String) :
    Except JsError UserDTO :=
  match v with
  | .userDto u => .ok u
  | .other _ =>
      .error (.base (.assertionError name "must be an instance of UserDTO"))

/-- Modelled from the spec: `UserDTO.js` is not in the repository snapshot.
§3/§4.2 — the constructor takes all persisted fields in a fixed order and
validates them (positive integer id, non-zero-length username), throwing
immediately on violation; otherwise it yields the immutable DTO. -/
def UserDTO.make (id : Int) (username : String) (loggedInUntil : Option Time)
    (createdAt updatedAt : Time) (deletedAt : Option Time) :
    Except JsError UserDTO := do
  Validators.isPositiveInteger id "id"
  Validators.isNonZeroLengthString username "username"
  .ok ⟨id, username, loggedInUntil, createdAt, updatedAt, deletedAt⟩

/-- Modelled from the spec: `MsgDTO.js` is not in the repository snapshot.
§3/§4.2 — validates a positive integer id, a non-zero-length message text
and that the author is a `UserDTO` (here guaranteed by typing, as every
in-repo call site passes a constructed `UserDTO`). -/
def MsgDTO.make (id : Int) (author : UserDTO) (msg : String)
    (createdAt updatedAt : Time) (deletedAt : Option Time) :
    Except JsError MsgDTO := do
  Validators.isPositiveInteger id "id"
  Validators.isNonZeroLengthString msg "msg"
  .ok ⟨id, author, msg, createdAt, updatedAt, deletedAt⟩

/-- The total row-to-DTO translation used to state results; the fallible
DAO helper `createUserDto` below agrees with it on validation-clean rows. -/
def UserRow.toDto (r : UserRow) : UserDTO :=
  ⟨r.id, r.username, r.loggedInUntil, r.createdAt, r.updatedAt, r.deletedAt⟩

/-- A user row whose field values satisfy the UserDTO constructor. -/
def UserRow.dtoValid (r : UserRow) : Prop :=
  0 < r.id ∧ 0 < r.username.length

instance (r : UserRow) : Decidable r.dtoValid := by
  unfold UserRow.dtoValid; infer_instance

/-- `ChatDAO.createUserDto`: builds a `UserDTO` from a raw row (throws if
the row violates DTO validation). -/
def createUserDto (r : UserRow) : Except JsError UserDTO :=
  UserDTO.make r.id r.username r.loggedInUntil r.createdAt r.updatedAt
    r.deletedAt

/-- `ChatDAO.createMsgDto`: builds a `MsgDTO` from a raw message row and an
already-built author DTO. -/
def createMsgDto (r : MsgRow) (author : UserDTO) : Except JsError MsgDTO :=
  MsgDTO.make r.id author r.msg r.createdAt r.updatedAt r.deletedAt

/-- `new Date(v)` applied to a nullable stored timestamp: SQL `NULL`
(JS `null`) coerces to the epoch; a stored timestamp is itself. In this
embedding every such value is a valid (non-NaN) date, so the
`isValidDate` guard of `Controller.isLoggedIn` always passes. -/
def jsDateOf : Option Time → Time
  | none => 0
  | some t => t

/-- `result.map(cb)` where the callback may throw: applies `f` left to
right, the first thrown error escaping. -/
def mapME (f : α → Except JsError β) : List α → Except JsError (List β)
  | [] => .ok []
  | a :: l => do
      let b ← f a
      let bs ← mapME f l
      .ok (b :: bs)

/-- Failure injection for the single store query of a DAO method: `some e`
means the underlying store throws `e` at that query, `none` that the query
succeeds with the modelled result. -/
def runQuery (qerr : Option BaseError) (a : α) : Except JsError α :=
  match qerr with
  | some e => .error (.base e)
  | none => .ok a

/-- A DAO `try/catch` that rethrows `new WError({cause: err, info}, ...)`:
any error of the body is wrapped into a domain error carrying the original
cause. (Within this codebase the body of a DAO method only ever throws
base errors.) -/
def wrapErr (info : List (String × String)) (x : Except JsError α) :
    Except JsError α :=
  match x with
  | .ok a => .ok a
  | .error (.base e) => .error (.domainError info (some e))
  | .error (.domainError _ c) => .error (.domainError info c)

/-- The `try/catch` of `ChatDAO.deleteMsg`, whose `WError` options carry
`info` but no `cause` field: the original error is dropped. -/
def wrapErrNoCause (info : List (String × String)) (x : Except JsError α) :
    Except JsError α :=
  match x with
  | .ok a => .ok a
  | .error _ => .error (.domainError info none)

/-- `db.transaction(async (tx) => body)`: runs the body against the current
state; if the body throws, the transaction rolls back (the state reverts to
the initial one) and the error propagates; otherwise the new state commits. -/
def transact (st : Store) (body : Store → Except JsError (α × Store)) :
    Except JsError α × Store :=
  match body st with
  | .error e => (.error e, st)
  | .ok (a, st') => (.ok a, st')

/-- The rows `select().from(users).where(eq(users.username, u) AND
isNull(users.deletedAt))` returns, in store order. -/
def matchingUsers (st : Store) (username : String) : List UserRow :=
  st.users.filter (fun r => r.username == username && r.deletedAt == none)

/-- The rows `select().from(users).where(eq(users.id, id) AND
isNull(users.deletedAt))` returns. -/
def usersById (st : Store) (id : Int) : List UserRow :=
  st.users.filter (fun r => r.id == id && r.deletedAt == none)

/-- `select().from(msgs).innerJoin(users, eq(msgs.userId, users.id))
.where(p AND isNull(msgs.deletedAt))`: each non-deleted message row passing
`p`, paired with every user row whose id equals its `userId` (no filter at
all on the user side of the join). -/
def joinMsgsUsers (st : Store) (p : MsgRow → Bool) :
    List (MsgRow × UserRow) :=
  (st.msgs.filter (fun r => r.deletedAt == none && p r)).flatMap
    (fun mr => (st.users.filter (fun ur => ur.id == mr.userId)).map
      (fun ur => (mr, ur)))

/-- `ChatDAO.findUserByUsername(username, tx)`: validates, selects matching
non-deleted rows, maps each to a `UserDTO`; any error is wrapped with the
operation context and the username. -/
def ChatDAO.findUserByUsername (username : String) (qerr : Option BaseError)
    (st : Store) : Except JsError (List UserDTO) :=
  wrapErr [("ChatDAO", "Failed to search for user."), ("username", username)]
    (do
      Validators.isNonZeroLengthString username "username"
      Validators.isAlnumString username "username"
      let rows ← runQuery qerr (matchingUsers st username)
      mapME createUserDto rows)

/-- `ChatDAO.findUserById(id, tx)`: validates, selects the non-deleted row
with that id, returns `null` when absent. -/
def ChatDAO.findUserById (id : Int) (qerr : Option BaseError) (st : Store) :
    Except JsError (Option UserDTO) :=
  wrapErr [("ChatDAO", "Failed to search for user."), ("id", toString id)]
    (do
      Validators.isPositiveInteger id "id"
      let rows ← runQuery qerr (usersById st id)
      match rows with
      | [] => .ok none
      | r :: _ => do
          let d ← createUserDto r
          .ok (some d))

/-- `ChatDAO.updateUser(user, tx)`: validates the argument is a `UserDTO`,
then sets `username`, `loggedInUntil` and `updatedAt` on every row whose id
equals `user.id` (the `where` clause matches on id only; zero matched rows
is not an error). -/
def ChatDAO.updateUser (user : JsValue) (now : Time)
    (qerr : Option BaseError) (st : Store) :
    Except JsError (Unit × Store) :=
  wrapErr [("ChatDAO", "Failed to update user."),
      ("username", match user with | .userDto u => u.username
                                   | .other _ => "undefined")]
    (do
      let u ← Validators.isInstanceOfUserDTO user "user"
      let _ ← runQuery qerr ()
      .ok ((), { st with users := st.users.map (fun r =>
        if r.id == u.id then
          { r with username := u.username, loggedInUntil := u.loggedInUntil,
                   updatedAt := now }
        else r) }))

/-- `ChatDAO.createUser(username, tx)`: validates, inserts a row with the
next serial id, `loggedInUntil` defaulted to the epoch and store-managed
timestamps, and returns the DTO built from the inserted row. -/
def ChatDAO.createUser (username : String) (now : Time)
    (qerr : Option BaseError) (st : Store) :
    Except JsError (UserDTO × Store) :=
  wrapErr [("ChatDAO", "Failed to create user."), ("username", username)]
    (do
      Validators.isNonZeroLengthString username "username"
      Validators.isAlnumString username "username"
      let row : UserRow :=
        { id := st.nextUserId, username := username,
          loggedInUntil := some 0, createdAt := now, updatedAt := now,
          deletedAt := none }
      let _ ← runQuery qerr ()
      let dto ← createUserDto row
      .ok (dto, { st with users := st.users ++ [row],
                          nextUserId := st.nextUserId + 1 }))

/-- The constraint-violation error the store raises when an inserted
`msgs.userId` references no existing `users.id` (schema.js declares the
foreign key). -/
def fkViolation : BaseError := .storeError 23503

/-- `ChatDAO.createMsg(msg, author, tx)`: validates the text and that
`author` is a `UserDTO`; inserts a row referencing `author.id` (the store
enforcing the foreign key); returns a `MsgDTO` built from the inserted row
plus the caller-supplied author DTO, without re-fetching the author. -/
def ChatDAO.createMsg (msg : String) (author : JsValue) (now : Time)
    (qerr : Option BaseError) (st : Store) :
    Except JsError (MsgDTO × Store) :=
  wrapErr [("ChatDAO", "Failed to create message."), ("message", msg)]
    (do
      Validators.isNonZeroLengthString msg "msg"
      let a ← Validators.isInstanceOfUserDTO author "author"
      let row : MsgRow :=
        { id := st.nextMsgId, msg := msg, userId := a.id,
          createdAt := now, updatedAt := now, deletedAt := none }
      let _ ← runQuery qerr ()
      if st.users.any (fun u => u.id == a.id) then do
        let dto ← createMsgDto row a
        .ok (dto, { st with msgs := st.msgs ++ [row],
                            nextMsgId := st.nextMsgId + 1 })
      else .error (.base fkViolation))

/-- `ChatDAO.findMsgById(id, tx)`: validates, selects the non-deleted
message joined with its author row (only the message side is filtered on
`deletedAt`), returns `null` when absent or soft-deleted. -/
def ChatDAO.findMsgById (id : Int) (qerr : Option BaseError) (st : Store) :
    Except JsError (Option MsgDTO) :=
  wrapErr [("ChatDAO", "Failed to search for msg."), ("id", toString id)]
    (do
      Validators.isPositiveInteger id "msgId"
      let rows ← runQuery qerr (joinMsgsUsers st (fun r => r.id == id))
      match rows with
      | [] => .ok none
      | (mr, ur) :: _ => do
          let a ← createUserDto ur
          let d ← createMsgDto mr a
          .ok (some d))

/-- `ChatDAO.findAllMsgs(tx)`: every non-deleted message joined with its
author row, each mapped to a `MsgDTO`. -/
def ChatDAO.findAllMsgs (qerr : Option BaseError) (st : Store) :
    Except JsError (List MsgDTO) :=
  wrapErr [("ChatDAO", "Failed to read messages.")]
    (do
      let rows ← runQuery qerr (joinMsgsUsers st (fun _ => true))
      mapME (fun rw => do
        let a ← createUserDto rw.2
        createMsgDto rw.1 a) rows)

/-- `ChatDAO.deleteMsg(id, tx)`: validates, then soft-deletes by setting
`deletedAt` to the current time on every row whose id matches (zero matched
rows is not an error). Its catch block, unlike every other DAO method,
builds the `WError` without a `cause` option. -/
def ChatDAO.deleteMsg (id : Int) (now : Time) (qerr : Option BaseError)
    (st : Store) : Except JsError (Unit × Store) :=
  wrapErrNoCause [("ChatDAO", "Failed to delete message."),
      ("msg", toString id)]
    (do
      Validators.isPositiveInteger id "msgId"
      let _ ← runQuery qerr ()
      .ok ((), { st with msgs := st.msgs.map (fun r =>
        if r.id == id then { r with deletedAt := some now } else r) }))

/-- `Controller.setUsersStatusToLoggedIn(user, tx)`: assigns
`loggedInUntil = now + 24 hours` on the DTO (JS mutates the object in
place; the caller returns this same object) and persists it via
`ChatDAO.updateUser`. `now.setHours(now.getHours() + 24)` is 24 hours in
milliseconds past `now`. -/
def msPerDay : Time := 86400000

def Controller.setUsersStatusToLoggedIn (user : UserDTO) (now : Time)
    (qerr : Option BaseError) (st : Store) :
    Except JsError (UserDTO × Store) := do
  let u := { user with loggedInUntil := some (now + msPerDay) }
  let (_, st') ← ChatDAO.updateUser (.userDto u) now qerr st
  .ok (u, st')

/-- `Controller.login(username)`: one transaction that validates the
username, looks it up, creates the user when no non-deleted row matches
(`users.length === 0`), then extends the session of `users[0]` by 24 hours
via `setUsersStatusToLoggedIn` and returns that DTO. `e1`/`e2`/`e3` inject
store failures into the lookup, the insert and the update respectively. -/
def Controller.login (username : String) (now : Time)
    (e1 e2 e3 : Option BaseError) (st : Store) :
    Except JsError UserDTO × Store :=
  transact st (fun st0 => do
    Validators.isNonZeroLengthString username "username"
    Validators.isAlnumString username "username"
    let users0 ← ChatDAO.findUserByUsername username e1 st0
    match users0 with
    | [] => do
        let (newUser, st1) ← ChatDAO.createUser username now e2 st0
        Controller.setUsersStatusToLoggedIn newUser now e3 st1
    | u :: _ => Controller.setUsersStatusToLoggedIn u now e3 st0)

/-- `Controller.isLoggedIn(username)`: one transaction; null when no user
matches; otherwise checks `users[0]`: null when `new Date(loggedInUntil)`
is invalid (vacuous here, see `jsDateOf`) or lies strictly before `now`,
else the user DTO. -/
def Controller.isLoggedIn (username : String) (now : Time)
    (e1 : Option BaseError) (st : Store) :
    Except JsError (Option UserDTO) × Store :=
  transact st (fun st0 => do
    Validators.isNonZeroLengthString username "username"
    Validators.isAlnumString username "username"
    let users0 ← ChatDAO.findUserByUsername username e1 st0
    match users0 with
    | [] => .ok (none, st0)
    | u :: _ =>
        if jsDateOf u.loggedInUntil < now then .ok (none, st0)
        else .ok (some u, st0))

/-- `Controller.addMsg(msg, author)`: one transaction; validates the text
and that `author` is a `UserDTO` instance, then delegates to
`ChatDAO.createMsg`. -/
def Controller.addMsg (msg : String) (author : JsValue) (now : Time)
    (e1 : Option BaseError) (st : Store) : Except JsError MsgDTO × Store :=
  transact st (fun st0 => do
    Validators.isNonZeroLengthString msg "msg"
    let _ ← Validators.isInstanceOfUserDTO author "user"
    ChatDAO.createMsg msg author now e1 st0)

/-- `Controller.findMsg(msgId)`: one transaction; validates, then a
read-only pass-through to `ChatDAO.findMsgById`. -/
def Controller.findMsg (msgId : Int) (e1 : Option BaseError) (st : Store) :
    Except JsError (Option MsgDTO) × Store :=
  transact st (fun st0 => do
    Validators.isPositiveInteger msgId "msgId"
    let r ← ChatDAO.findMsgById msgId e1 st0
    .ok (r, st0))

/-- `Controller.findUser(id)`: one transaction; a pass-through to
`ChatDAO.findUserById` with no validation of its own in the controller. -/
def Controller.findUser (id : Int) (e1 : Option BaseError) (st : Store) :
    Except JsError (Option UserDTO) × Store :=
  transact st (fun st0 => do
    let r ← ChatDAO.findUserById id e1 st0
    .ok (r, st0))

/-- `Controller.findAllMsgs()`: one transaction; a read-only pass-through
to `ChatDAO.findAllMsgs`. -/
def Controller.findAllMsgs (e1 : Option BaseError) (st : Store) :
    Except JsError (List MsgDTO) × Store :=
  transact st (fun st0 => do
    let r ← ChatDAO.findAllMsgs e1 st0
    .ok (r, st0))

/-- `Controller.deleteMsg(msgId)`: one transaction; validates, then
delegates to the DAO soft delete. -/
def Controller.deleteMsg (msgId : Int) (now : Time)
    (e1 : Option BaseError) (st : Store) : Except JsError Unit × Store :=
  transact st (fun st0 => do
    Validators.isPositiveInteger msgId "msgId"
    let (_, st1) ← ChatDAO.deleteMsg msgId now e1 st0
    .ok ((), st1))

deriving instance DecidableEq for Except

theorem ok_bind (a : α) (f : α → Except JsError β) :
    (Except.ok a >>= f) = f a := rfl

theorem error_bind (e : JsError) (f : α → Except JsError β) :
    (Except.error e >>= f) = Except.error e := rfl

theorem wrapErr_ok (info : List (String × String)) {x : Except JsError α}
    {a : α} (h : x = .ok a) : wrapErr info x = .ok a := by
  rw [h]; rfl

theorem wrapErr_ok_iff (info : List (String × String)) (x : Except JsError α)
    (a : α) : wrapErr info x = .ok a ↔ x = .ok a := by
  constructor
  · intro h
    cases x with
    | ok b => simpa [wrapErr] using h
    | error e => cases e <;> simp [wrapErr] at h
  · exact wrapErr_ok info

theorem transact_error {α} (st : Store)
    (body : Store → Except JsError (α × Store)) {e : JsError}
    (h : (transact st body).1 = .error e) : (transact st body).2 = st := by
  unfold transact at *
  cases hb : body st with
  | error e' => simp [hb]
  | ok p => rw [hb] at h; simp at h

theorem transact_ok {α} (st : Store)
    (body : Store → Except JsError (α × Store)) {a : α} {st' : Store}
    (h : body st = .ok (a, st')) : transact st body = (.ok a, st') := by
  unfold transact; rw [h]

theorem createUserDto_eq {r : UserRow} (h : r.dtoValid) :
    createUserDto r = .ok r.toDto := by
  obtain ⟨h1, h2⟩ := h
  simp [createUserDto, UserDTO.make, Validators.isPositiveInteger,
    Validators.isNonZeroLengthString, h1, h2, UserRow.toDto]
  rfl

theorem mapME_ok_of_valid {l : List UserRow}
    (h : ∀ r ∈ l, r.dtoValid) :
    mapME createUserDto l = .ok (l.map UserRow.toDto) := by
  induction l with
  | nil => rfl
  | cons r l ih =>
      have hr : r.dtoValid := h r (List.mem_cons_self r l)
      have hl : ∀ x ∈ l, x.dtoValid := fun x hx => h x (List.mem_cons_of_mem r hx)
      simp [mapME, createUserDto_eq hr, ih hl, ok_bind]

theorem mapME_mem {f : α → Except JsError β} {l : List α} {l' : List β}
    (h : mapME f l = .ok l') {b : β} (hb : b ∈ l') :
    ∃ a ∈ l, f a = .ok b := by
  induction l generalizing l' with
  | nil =>
      simp [mapME] at h
      subst h
      cases hb
  | cons a l ih =>
      unfold mapME at h
      cases hfa : f a with
      | error e => rw [hfa] at h; simp [error_bind] at h
      | ok b0 =>
          rw [hfa] at h
          rw [ok_bind] at h
          cases hml : mapME f l with
          | error e => rw [hml] at h; simp [error_bind] at h
          | ok bs =>
              rw [hml] at h
              rw [ok_bind] at h
              simp only [Except.ok.injEq] at h
              subst h
              rcases List.mem_cons.mp hb with hb | hb
              · exact ⟨a, List.mem_cons_self a l, by rw [hfa, hb]⟩
              · obtain ⟨x, hx, hfx⟩ := ih hml hb
                exact ⟨x, List.mem_cons_of_mem a hx, hfx⟩

theorem mapME_mem_of {f : α → Except JsError β} {l : List α} {l' : List β}
    (h : mapME f l = .ok l') {a : α} (ha : a ∈ l) {b : β}
    (hfa : f a = .ok b) : b ∈ l' := by
  induction l generalizing l' with
  | nil => cases ha
  | cons x l ih =>
      unfold mapME at h
      cases hfx : f x with
      | error e => rw [hfx] at h; simp [error_bind] at h
      | ok b0 =>
          rw [hfx] at h
          rw [ok_bind] at h
          cases hml : mapME f l with
          | error e => rw [hml] at h; simp [error_bind] at h
          | ok bs =>
              rw [hml] at h
              rw [ok_bind] at h
              simp only [Except.ok.injEq] at h
              subst h
              rcases List.mem_cons.mp ha with ha | ha
              · subst ha
                rw [hfx] at hfa
                simp only [Except.ok.injEq] at hfa
                subst hfa
                exact List.mem_cons_self b0 bs
              · exact List.mem_cons_of_mem b0 (ih hml ha)

theorem isNonZeroLengthString_ok {s : String} (h : 0 < s.length)
    (name : String) : Validators.isNonZeroLengthString s name = .ok () := by
  unfold Validators.isNonZeroLengthString
  exact if_pos h

theorem isAlnumString_ok {s : String}
    (h : s.data.all Char.isAlphanum = true) (name : String) :
    Validators.isAlnumString s name = .ok () := by
  unfold Validators.isAlnumString
  rw [h]
  rfl

theorem isPositiveInteger_ok {n : Int} (h : 0 < n) (name : String) :
    Validators.isPositiveInteger n name = .ok () := by
  unfold Validators.isPositiveInteger
  exact if_pos h

/-- A valid username passed to `findUserByUsername` with a healthy store
yields exactly the non-deleted rows with that username, as DTOs, in store
order. -/
theorem findUserByUsername_spec {username : String} {st : Store}
    (hu1 : 0 < username.length) (hu2 : username.data.all Char.isAlphanum = true)
    (hv : ∀ r ∈ matchingUsers st username, r.dtoValid) :
    ChatDAO.findUserByUsername username none st =
      .ok ((matchingUsers st username).map UserRow.toDto) := by
  unfold ChatDAO.findUserByUsername
  rw [isNonZeroLengthString_ok hu1, ok_bind, isAlnumString_ok hu2, ok_bind]
  rw [show runQuery (α := List UserRow) none (matchingUsers st username) =
    .ok (matchingUsers st username) from rfl, ok_bind]
  exact wrapErr_ok _ (mapME_ok_of_valid hv)

/-- A message row whose field values satisfy the MsgDTO constructor. -/
def MsgRow.dtoValid (r : MsgRow) : Prop :=
  0 < r.id ∧ 0 < r.msg.length

instance (r : MsgRow) : Decidable r.dtoValid := by
  unfold MsgRow.dtoValid; infer_instance

/-- The total message-row-to-DTO translation with a given author DTO. -/
def MsgRow.toDtoWith (r : MsgRow) (a : UserDTO) : MsgDTO :=
  ⟨r.id, a, r.msg, r.createdAt, r.updatedAt, r.deletedAt⟩

theorem createMsgDto_eq {r : MsgRow} (h : r.dtoValid) (a : UserDTO) :
    createMsgDto r a = .ok (r.toDtoWith a) := by
  obtain ⟨h1, h2⟩ := h
  simp [createMsgDto, MsgDTO.make, Validators.isPositiveInteger,
    Validators.isNonZeroLengthString, h1, h2, MsgRow.toDtoWith]
  rfl

/-- The row `ChatDAO.createUser` inserts for a username at a given time. -/
def freshUserRow (st : Store) (username : String) (now : Time) : UserRow :=
  { id := st.nextUserId, username := username, loggedInUntil := some 0,
    createdAt := now, updatedAt := now, deletedAt := none }

theorem createUser_spec {username : String} (now : Time) {st : Store}
    (hu1 : 0 < username.length)
    (hu2 : username.data.all Char.isAlphanum = true)
    (hid : 0 < st.nextUserId) :
    ChatDAO.createUser username now none st =
      .ok ((freshUserRow st username now).toDto,
        { st with users := st.users ++ [freshUserRow st username now],
                  nextUserId := st.nextUserId + 1 }) := by
  unfold ChatDAO.createUser
  rw [isNonZeroLengthString_ok hu1, ok_bind, isAlnumString_ok hu2, ok_bind]
  rw [show runQuery (α := Unit) none () = .ok () from rfl, ok_bind]
  have hdto : createUserDto
      { id := st.nextUserId, username := username, loggedInUntil := some 0,
        createdAt := now, updatedAt := now, deletedAt := none } =
      .ok (freshUserRow st username now).toDto :=
    createUserDto_eq ⟨hid, hu1⟩
  rw [hdto, ok_bind]
  rfl

/-- The users table after `ChatDAO.updateUser`: every row whose id matches
gets the DTO's username and `loggedInUntil` and a bumped `updatedAt`. -/
def updatedUsers (u : UserDTO) (now : Time) (l : List UserRow) :
    List UserRow :=
  l.map (fun r =>
    if r.id == u.id then
      { r with username := u.username, loggedInUntil := u.loggedInUntil,
               updatedAt := now }
    else r)

theorem updateUser_spec (u : UserDTO) (now : Time) (st : Store) :
    ChatDAO.updateUser (.userDto u) now none st =
      .ok ((), { st with users := updatedUsers u now st.users }) := rfl

theorem deleteMsg_spec {id : Int} (hid : 0 < id) (now : Time) (st : Store) :
    ChatDAO.deleteMsg id now none st =
      .ok ((), { st with msgs := st.msgs.map (fun r =>
        if r.id == id then { r with deletedAt := some now } else r) }) := by
  unfold ChatDAO.deleteMsg
  rw [isPositiveInteger_ok hid, ok_bind]
  rfl

/-- The row `ChatDAO.createMsg` inserts. -/
def freshMsgRow (st : Store) (msg : String) (authorId : Int) (now : Time) :
    MsgRow :=
  { id := st.nextMsgId, msg := msg, userId := authorId, createdAt := now,
    updatedAt := now, deletedAt := none }

theorem createMsg_spec {msg : String} {a : UserDTO} (now : Time) {st : Store}
    (hm : 0 < msg.length)
    (hfk : st.users.any (fun u => u.id == a.id) = true)
    (hid : 0 < st.nextMsgId) :
    ChatDAO.createMsg msg (.userDto a) now none st =
      .ok ((freshMsgRow st msg a.id now).toDtoWith a,
        { st with msgs := st.msgs ++ [freshMsgRow st msg a.id now],
                  nextMsgId := st.nextMsgId + 1 }) := by
  unfold ChatDAO.createMsg
  rw [isNonZeroLengthString_ok hm, ok_bind]
  rw [show Validators.isInstanceOfUserDTO (.userDto a) "author" = .ok a
    from rfl, ok_bind]
  rw [show runQuery (α := Unit) none () = .ok () from rfl, ok_bind]
  rw [hfk]
  have hdto : createMsgDto
      { id := st.nextMsgId, msg := msg, userId := a.id, createdAt := now,
        updatedAt := now, deletedAt := none } a =
      .ok ((freshMsgRow st msg a.id now).toDtoWith a) :=
    createMsgDto_eq ⟨hid, hm⟩ a
  simp only [if_pos rfl]
  rw [hdto, ok_bind]
  rfl

theorem findMsgById_none {id : Int} (hid : 0 < id) {st : Store}
    (hj : joinMsgsUsers st (fun r => r.id == id) = []) :
    ChatDAO.findMsgById id none st = .ok none := by
  unfold ChatDAO.findMsgById
  rw [isPositiveInteger_ok hid, ok_bind]
  rw [show runQuery none (joinMsgsUsers st (fun r => r.id == id)) =
    .ok (joinMsgsUsers st (fun r => r.id == id)) from rfl, ok_bind, hj]
  rfl

theorem findMsgById_some {id : Int} (hid : 0 < id) {st : Store}
    {mr : MsgRow} {ur : UserRow} {rest : List (MsgRow × UserRow)}
    (hj : joinMsgsUsers st (fun r => r.id == id) = (mr, ur) :: rest)
    (hur : ur.dtoValid) (hmr : mr.dtoValid) :
    ChatDAO.findMsgById id none st = .ok (some (mr.toDtoWith ur.toDto)) := by
  unfold ChatDAO.findMsgById
  rw [isPositiveInteger_ok hid, ok_bind]
  rw [show runQuery none (joinMsgsUsers st (fun r => r.id == id)) =
    .ok (joinMsgsUsers st (fun r => r.id == id)) from rfl, ok_bind]
  simp only [hj]
  rw [show createUserDto ur = .ok ur.toDto from createUserDto_eq hur]
  rw [ok_bind]
  rw [createMsgDto_eq hmr]
  rfl

theorem findAllMsgs_spec (st : Store) :
    ChatDAO.findAllMsgs none st =
      wrapErr [("ChatDAO", "Failed to read messages.")]
        (mapME (fun rw => do
            let a ← createUserDto rw.2
            createMsgDto rw.1 a)
          (joinMsgsUsers st (fun _ => true))) := rfl

/-- The session extension: the DTO handed back (and persisted) is the input
DTO with `loggedInUntil` pushed 24 hours past `now`. -/
theorem setUsersStatusToLoggedIn_spec (user : UserDTO) (now : Time)
    (st : Store) :
    Controller.setUsersStatusToLoggedIn user now none st =
      .ok ({ user with loggedInUntil := some (now + msPerDay) },
        { st with users := (updatedUsers
            ({ user with loggedInUntil := some (now + msPerDay) }) now
            st.users) }) := rfl

theorem transact_fst_error {α} (st : Store)
    (body : Store → Except JsError (α × Store)) (e : JsError)
    (h : body st = .error e) : (transact st body).1 = .error e := by
  unfold transact
  rw [h]

/-- The body of `Controller.addMsg` always throws when the author argument
is not a `UserDTO` instance (either the text or the instance-of validation
fails before the DAO insert is reached). -/
theorem addMsg_body_nonDto_error (msg tag : String) (now : Time)
    (e1 : Option BaseError) (st : Store) :
    ∃ e : JsError, (do
      Validators.isNonZeroLengthString msg "msg"
      let _ ← Validators.isInstanceOfUserDTO (.other tag) "user"
      ChatDAO.createMsg msg (.other tag) now e1 st :
        Except JsError (MsgDTO × Store)) = .error e := by
  by_cases hm : 0 < msg.length
  · refine ⟨.base (.assertionError "user" "must be an instance of UserDTO"), ?_⟩
    rw [isNonZeroLengthString_ok hm, ok_bind]
    rfl
  · refine ⟨.base (.assertionError "msg" "must be a non-zero length string"), ?_⟩
    unfold Validators.isNonZeroLengthString
    rw [if_neg hm]
    rfl

/-- C1 — Every public Controller operation runs inside exactly one atomic
transaction: whenever the operation throws, the resulting store state is
the initial one (no partial commit), and in particular `addMsg` invoked
with an author that is not a `UserDTO` instance always throws and leaves
the store unchanged (no row inserted). -/
theorem controller_ops_atomic :
    (∀ username now e1 e2 e3 st (e : JsError),
      (Controller.login username now e1 e2 e3 st).1 = .error e →
      (Controller.login username now e1 e2 e3 st).2 = st) ∧
    (∀ username now e1 st (e : JsError),
      (Controller.isLoggedIn username now e1 st).1 = .error e →
      (Controller.isLoggedIn username now e1 st).2 = st) ∧
    (∀ msg author now e1 st (e : JsError),
      (Controller.addMsg msg author now e1 st).1 = .error e →
      (Controller.addMsg msg author now e1 st).2 = st) ∧
    (∀ msgId e1 st (e : JsError),
      (Controller.findMsg msgId e1 st).1 = .error e →
      (Controller.findMsg msgId e1 st).2 = st) ∧
    (∀ id e1 st (e : JsError),
      (Controller.findUser id e1 st).1 = .error e →
      (Controller.findUser id e1 st).2 = st) ∧
    (∀ e1 st (e : JsError),
      (Controller.findAllMsgs e1 st).1 = .error e →
      (Controller.findAllMsgs e1 st).2 = st) ∧
    (∀ msgId now e1 st (e : JsError),
      (Controller.deleteMsg msgId now e1 st).1 = .error e →
      (Controller.deleteMsg msgId now e1 st).2 = st) ∧
    (∀ msg tag now e1 st,
      (∃ e : JsError,
        (Controller.addMsg msg (.other tag) now e1 st).1 = .error e) ∧
      (Controller.addMsg msg (.other tag) now e1 st).2 = st) := by
  refine ⟨?_, ?_, ?_, ?_, ?_, ?_, ?_, ?_⟩
  · intro username now e1 e2 e3 st e h
    exact transact_error st _ h
  · intro username now e1 st e h
    exact transact_error st _ h
  · intro msg author now e1 st e h
    exact transact_error st _ h
  · intro msgId e1 st e h
    exact transact_error st _ h
  · intro id e1 st e h
    exact transact_error st _ h
  · intro e1 st e h
    exact transact_error st _ h
  · intro msgId now e1 st e h
    exact transact_error st _ h
  · intro msg tag now e1 st
    obtain ⟨e, he⟩ := addMsg_body_nonDto_error msg tag now e1 st
    have herr : (Controller.addMsg msg (.other tag) now e1 st).1 =
        .error e := transact_fst_error st _ e he
    exact ⟨⟨e, herr⟩, transact_error st _ herr⟩

/-- Witness for C1, exercising the non-trivial rollback: a `login` whose
session-extension update fails mid-transaction (after the user creation
step) leaves the store exactly as it was, and `addMsg` with a non-`UserDTO`
author leaves the store unchanged. -/
theorem controller_ops_atomic_witness :
    (Controller.login "alice" 1000 none none
        (some (.storeError 7)) ⟨[], [], 1, 1⟩).2 = ⟨[], [], 1, 1⟩ ∧
    (Controller.addMsg "hi" (.other "x") 0 none ⟨[], [], 1, 1⟩).2 =
      ⟨[], [], 1, 1⟩ :=
  ⟨controller_ops_atomic.1 "alice" 1000 none none (some (.storeError 7))
      ⟨[], [], 1, 1⟩
      (.domainError [("ChatDAO", "Failed to update user."),
        ("username", "alice")] (some (.storeError 7)))
      (by decide),
    (controller_ops_atomic.2.2.2.2.2.2.2 "hi" "x" 0 none ⟨[], [], 1, 1⟩).2⟩

/-- C5 — evaluation of every DAO method at a concrete input while the
underlying store query throws `storeError 7`: the seven methods other than
`deleteMsg` wrap it into a domain error carrying the original error as the
cause plus operation/parameter info, but `deleteMsg` (whose catch block
omits the `cause` option of its `WError`) throws a domain error whose
cause is absent — the original store error is lost. -/
theorem dao_wraps_store_errors_except_deleteMsg :
    ChatDAO.findUserByUsername "bob" (some (.storeError 7)) ⟨[], [], 1, 1⟩ =
      .error (.domainError [("ChatDAO", "Failed to search for user."),
        ("username", "bob")] (some (.storeError 7))) ∧
    ChatDAO.findUserById 1 (some (.storeError 7)) ⟨[], [], 1, 1⟩ =
      .error (.domainError [("ChatDAO", "Failed to search for user."),
        ("id", "1")] (some (.storeError 7))) ∧
    ChatDAO.createUser "bob" 0 (some (.storeError 7)) ⟨[], [], 1, 1⟩ =
      .error (.domainError [("ChatDAO", "Failed to create user."),
        ("username", "bob")] (some (.storeError 7))) ∧
    ChatDAO.updateUser (.userDto ⟨1, "bob", some 0, 0, 0, none⟩) 0
        (some (.storeError 7)) ⟨[], [], 1, 1⟩ =
      .error (.domainError [("ChatDAO", "Failed to update user."),
        ("username", "bob")] (some (.storeError 7))) ∧
    ChatDAO.createMsg "hi" (.userDto ⟨1, "bob", some 0, 0, 0, none⟩) 0
        (some (.storeError 7)) ⟨[], [], 1, 1⟩ =
      .error (.domainError [("ChatDAO", "Failed to create message."),
        ("message", "hi")] (some (.storeError 7))) ∧
    ChatDAO.findMsgById 1 (some (.storeError 7)) ⟨[], [], 1, 1⟩ =
      .error (.domainError [("ChatDAO", "Failed to search for msg."),
        ("id", "1")] (some (.storeError 7))) ∧
    ChatDAO.findAllMsgs (some (.storeError 7)) ⟨[], [], 1, 1⟩ =
      .error (.domainError [("ChatDAO", "Failed to read messages.")]
        (some (.storeError 7))) ∧
    ChatDAO.deleteMsg 1 0 (some (.storeError 7)) ⟨[], [], 1, 1⟩ =
      .error (.domainError [("ChatDAO", "Failed to delete message."),
        ("msg", "1")] none) := by
  decide

theorem transact_eq_error {α} (st : Store)
    (body : Store → Except JsError (α × Store)) {e : JsError}
    (h : body st = .error e) : transact st body = (.error e, st) := by
  unfold transact
  rw [h]

/-- C8 counterexample — `findUser(0)`: the validation error does not reach
the caller unmodified; it arrives rewrapped by the DAO inside a domain
error (with the original assertion error as its cause). -/
theorem findUser_validation_rewrapped :
    (Controller.findUser 0 none ⟨[], [], 1, 1⟩).1 =
      .error (.domainError [("ChatDAO", "Failed to search for user."),
        ("id", "0")]
        (some (.assertionError "id" "must be a positive integer"))) ∧
    (Controller.findUser 0 none ⟨[], [], 1, 1⟩).1 ≠
      .error (.base (.assertionError "id" "must be a positive integer")) := by
  decide

theorem isNonZeroLengthString_fail {s : String} (h : ¬(0 < s.length))
    (name : String) :
    Validators.isNonZeroLengthString s name =
      .error (.base (.assertionError name
        "must be a non-zero length string")) := by
  unfold Validators.isNonZeroLengthString
  rw [if_neg h]

theorem isAlnumString_fail {s : String}
    (h : s.data.all Char.isAlphanum = false) (name : String) :
    Validators.isAlnumString s name =
      .error (.base (.assertionError name
        "must consist of letters and numbers")) := by
  unfold Validators.isAlnumString
  rw [h]
  rfl

theorem isPositiveInteger_fail {n : Int} (h : ¬(0 < n)) (name : String) :
    Validators.isPositiveInteger n name =
      .error (.base (.assertionError name "must be a positive integer")) := by
  unfold Validators.isPositiveInteger
  rw [if_neg h]

/-- C8 (amended) — every malformed caller input to a public Controller
operation is rejected before any store query runs (the result is the same
for every injected query outcome), the error names the offending
parameter, and the store is unchanged. For the operations whose validation
lives in the Controller — `login` and `isLoggedIn` (empty or
non-alphanumeric username), `addMsg` (empty text, or a valid text with an
author that is not a `UserDTO` instance), `findMsg` and `deleteMsg`
(non-positive id) — the assertion error reaches the caller unmodified.
`findUser` (non-positive id) has no Controller-side validation: the id is
validated inside the DAO's try/catch, so its assertion error reaches the
caller wrapped in the DAO's domain error with the original error preserved
as the cause. (`findAllMsgs` takes no caller input.) -/
theorem validation_precedes_store_access :
    (∀ (username : String), ¬(0 < username.length) →
      ∀ (now : Time) (e1 e2 e3 : Option BaseError) (st : Store),
      Controller.login username now e1 e2 e3 st =
        (.error (.base (.assertionError "username"
          "must be a non-zero length string")), st)) ∧
    (∀ (username : String), 0 < username.length →
      username.data.all Char.isAlphanum = false →
      ∀ (now : Time) (e1 e2 e3 : Option BaseError) (st : Store),
      Controller.login username now e1 e2 e3 st =
        (.error (.base (.assertionError "username"
          "must consist of letters and numbers")), st)) ∧
    (∀ (username : String), ¬(0 < username.length) →
      ∀ (now : Time) (e1 : Option BaseError) (st : Store),
      Controller.isLoggedIn username now e1 st =
        (.error (.base (.assertionError "username"
          "must be a non-zero length string")), st)) ∧
    (∀ (username : String), 0 < username.length →
      username.data.all Char.isAlphanum = false →
      ∀ (now : Time) (e1 : Option BaseError) (st : Store),
      Controller.isLoggedIn username now e1 st =
        (.error (.base (.assertionError "username"
          "must consist of letters and numbers")), st)) ∧
    (∀ (msg : String) (author : JsValue), ¬(0 < msg.length) →
      ∀ (now : Time) (e1 : Option BaseError) (st : Store),
      Controller.addMsg msg author now e1 st =
        (.error (.base (.assertionError "msg"
          "must be a non-zero length string")), st)) ∧
    (∀ (msg tag : String), 0 < msg.length →
      ∀ (now : Time) (e1 : Option BaseError) (st : Store),
      Controller.addMsg msg (.other tag) now e1 st =
        (.error (.base (.assertionError "user"
          "must be an instance of UserDTO")), st)) ∧
    (∀ (msgId : Int), ¬(0 < msgId) →
      ∀ (e1 : Option BaseError) (st : Store),
      Controller.findMsg msgId e1 st =
        (.error (.base (.assertionError "msgId"
          "must be a positive integer")), st)) ∧
    (∀ (msgId : Int), ¬(0 < msgId) →
      ∀ (now : Time) (e1 : Option BaseError) (st : Store),
      Controller.deleteMsg msgId now e1 st =
        (.error (.base (.assertionError "msgId"
          "must be a positive integer")), st)) ∧
    (∀ (id : Int), ¬(0 < id) →
      ∀ (e1 : Option BaseError) (st : Store),
      Controller.findUser id e1 st =
        (.error (.domainError [("ChatDAO", "Failed to search for user."),
          ("id", toString id)]
          (some (.assertionError "id" "must be a positive integer"))),
          st)) := by
  refine ⟨?_, ?_, ?_, ?_, ?_, ?_, ?_, ?_, ?_⟩
  · intro username h now e1 e2 e3 st
    unfold Controller.login
    apply transact_eq_error
    show (do
      Validators.isNonZeroLengthString username "username"
      Validators.isAlnumString username "username"
      let users0 ← ChatDAO.findUserByUsername username e1 st
      match users0 with
      | [] => do
          let (newUser, st1) ← ChatDAO.createUser username now e2 st
          Controller.setUsersStatusToLoggedIn newUser now e3 st1
      | u :: _ => Controller.setUsersStatusToLoggedIn u now e3 st :
        Except JsError (UserDTO × Store)) = _
    rw [isNonZeroLengthString_fail h, error_bind]
  · intro username h1 h2 now e1 e2 e3 st
    unfold Controller.login
    apply transact_eq_error
    show (do
      Validators.isNonZeroLengthString username "username"
      Validators.isAlnumString username "username"
      let users0 ← ChatDAO.findUserByUsername username e1 st
      match users0 with
      | [] => do
          let (newUser, st1) ← ChatDAO.createUser username now e2 st
          Controller.setUsersStatusToLoggedIn newUser now e3 st1
      | u :: _ => Controller.setUsersStatusToLoggedIn u now e3 st :
        Except JsError (UserDTO × Store)) = _
    rw [isNonZeroLengthString_ok h1, ok_bind, isAlnumString_fail h2,
      error_bind]
  · intro username h now e1 st
    unfold Controller.isLoggedIn
    apply transact_eq_error
    show (do
      Validators.isNonZeroLengthString username "username"
      Validators.isAlnumString username "username"
      let users0 ← ChatDAO.findUserByUsername username e1 st
      match users0 with
      | [] => .ok (none, st)
      | u :: _ =>
          if jsDateOf u.loggedInUntil < now then .ok (none, st)
          else .ok (some u, st) :
        Except JsError (Option UserDTO × Store)) = _
    rw [isNonZeroLengthString_fail h, error_bind]
  · intro username h1 h2 now e1 st
    unfold Controller.isLoggedIn
    apply transact_eq_error
    show (do
      Validators.isNonZeroLengthString username "username"
      Validators.isAlnumString username "username"
      let users0 ← ChatDAO.findUserByUsername username e1 st
      match users0 with
      | [] => .ok (none, st)
      | u :: _ =>
          if jsDateOf u.loggedInUntil < now then .ok (none, st)
          else .ok (some u, st) :
        Except JsError (Option UserDTO × Store)) = _
    rw [isNonZeroLengthString_ok h1, ok_bind, isAlnumString_fail h2,
      error_bind]
  · intro msg author h now e1 st
    unfold Controller.addMsg
    apply transact_eq_error
    show (do
      Validators.isNonZeroLengthString msg "msg"
      let _ ← Validators.isInstanceOfUserDTO author "user"
      ChatDAO.createMsg msg author now e1 st :
        Except JsError (MsgDTO × Store)) = _
    rw [isNonZeroLengthString_fail h, error_bind]
  · intro msg tag hm now e1 st
    unfold Controller.addMsg
    apply transact_eq_error
    show (do
      Validators.isNonZeroLengthString msg "msg"
      let _ ← Validators.isInstanceOfUserDTO (.other tag) "user"
      ChatDAO.createMsg msg (.other tag) now e1 st :
        Except JsError (MsgDTO × Store)) = _
    rw [isNonZeroLengthString_ok hm, ok_bind]
    rfl
  · intro msgId h e1 st
    unfold Controller.findMsg
    apply transact_eq_error
    show (do
      Validators.isPositiveInteger msgId "msgId"
      let r ← ChatDAO.findMsgById msgId e1 st
      Except.ok (r, st) : Except JsError (Option MsgDTO × Store)) = _
    rw [isPositiveInteger_fail h, error_bind]
  · intro msgId h now e1 st
    unfold Controller.deleteMsg
    apply transact_eq_error
    show (do
      Validators.isPositiveInteger msgId "msgId"
      let (_, st1) ← ChatDAO.deleteMsg msgId now e1 st
      Except.ok ((), st1) : Except JsError (Unit × Store)) = _
    rw [isPositiveInteger_fail h, error_bind]
  · intro id hid e1 st
    have hdao : ChatDAO.findUserById id e1 st =
        .error (.domainError [("ChatDAO", "Failed to search for user."),
          ("id", toString id)]
          (some (.assertionError "id" "must be a positive integer"))) := by
      unfold ChatDAO.findUserById
      rw [isPositiveInteger_fail hid, error_bind]
      rfl
    unfold Controller.findUser
    apply transact_eq_error
    show (do
      let r ← ChatDAO.findUserById id e1 st
      Except.ok (r, st) : Except JsError (Option UserDTO × Store)) = _
    rw [hdao]
    rfl

/-- Witness for C8's amended theorem: one concrete malformed input per
public operation, each under an injected store error that the run never
reaches. -/
theorem validation_precedes_store_access_witness :
    Controller.login "" 0 (some (.storeError 9)) none none ⟨[], [], 1, 1⟩ =
      (.error (.base (.assertionError "username"
        "must be a non-zero length string")), ⟨[], [], 1, 1⟩) ∧
    Controller.login "a b" 0 (some (.storeError 9)) none none
        ⟨[], [], 1, 1⟩ =
      (.error (.base (.assertionError "username"
        "must consist of letters and numbers")), ⟨[], [], 1, 1⟩) ∧
    Controller.isLoggedIn "" 0 (some (.storeError 9)) ⟨[], [], 1, 1⟩ =
      (.error (.base (.assertionError "username"
        "must be a non-zero length string")), ⟨[], [], 1, 1⟩) ∧
    Controller.isLoggedIn "a b" 0 (some (.storeError 9)) ⟨[], [], 1, 1⟩ =
      (.error (.base (.assertionError "username"
        "must consist of letters and numbers")), ⟨[], [], 1, 1⟩) ∧
    Controller.addMsg "" (.userDto ⟨1, "bob", some 0, 0, 0, none⟩) 0
        (some (.storeError 9)) ⟨[], [], 1, 1⟩ =
      (.error (.base (.assertionError "msg"
        "must be a non-zero length string")), ⟨[], [], 1, 1⟩) ∧
    Controller.addMsg "hi" (.other "x") 0 (some (.storeError 9))
        ⟨[], [], 1, 1⟩ =
      (.error (.base (.assertionError "user"
        "must be an instance of UserDTO")), ⟨[], [], 1, 1⟩) ∧
    Controller.findMsg 0 (some (.storeError 9)) ⟨[], [], 1, 1⟩ =
      (.error (.base (.assertionError "msgId"
        "must be a positive integer")), ⟨[], [], 1, 1⟩) ∧
    Controller.deleteMsg 0 0 (some (.storeError 9)) ⟨[], [], 1, 1⟩ =
      (.error (.base (.assertionError "msgId"
        "must be a positive integer")), ⟨[], [], 1, 1⟩) ∧
    Controller.findUser (-3) (some (.storeError 9)) ⟨[], [], 1, 1⟩ =
      (.error (.domainError [("ChatDAO", "Failed to search for user."),
        ("id", "-3")]
        (some (.assertionError "id" "must be a positive integer"))),
        ⟨[], [], 1, 1⟩) :=
  ⟨validation_precedes_store_access.1 "" (by decide) 0
      (some (.storeError 9)) none none ⟨[], [], 1, 1⟩,
    validation_precedes_store_access.2.1 "a b" (by decide) (by decide) 0
      (some (.storeError 9)) none none ⟨[], [], 1, 1⟩,
    validation_precedes_store_access.2.2.1 "" (by decide) 0
      (some (.storeError 9)) ⟨[], [], 1, 1⟩,
    validation_precedes_store_access.2.2.2.1 "a b" (by decide) (by decide)
      0 (some (.storeError 9)) ⟨[], [], 1, 1⟩,
    validation_precedes_store_access.2.2.2.2.1 ""
      (.userDto ⟨1, "bob", some 0, 0, 0, none⟩) (by decide) 0
      (some (.storeError 9)) ⟨[], [], 1, 1⟩,
    validation_precedes_store_access.2.2.2.2.2.1 "hi" "x" (by decide) 0
      (some (.storeError 9)) ⟨[], [], 1, 1⟩,
    validation_precedes_store_access.2.2.2.2.2.2.1 0 (by decide)
      (some (.storeError 9)) ⟨[], [], 1, 1⟩,
    validation_precedes_store_access.2.2.2.2.2.2.2.1 0 (by decide) 0
      (some (.storeError 9)) ⟨[], [], 1, 1⟩,
    validation_precedes_store_access.2.2.2.2.2.2.2.2 (-3) (by decide)
      (some (.storeError 9)) ⟨[], [], 1, 1⟩⟩

/-- How `Controller.isLoggedIn` evaluates on a healthy store: null when no
non-deleted row matches, otherwise the first matching row decided by
`loggedInUntil < now`. -/
theorem isLoggedIn_run {username : String} {now : Time} {st : Store}
    (hu1 : 0 < username.length)
    (hu2 : username.data.all Char.isAlphanum = true)
    (hv : ∀ r ∈ matchingUsers st username, r.dtoValid) :
    Controller.isLoggedIn username now none st =
      (.ok (match matchingUsers st username with
        | [] => none
        | r :: _ =>
            if jsDateOf r.loggedInUntil < now then none else some r.toDto),
        st) := by
  unfold Controller.isLoggedIn
  apply transact_ok
  show (do
    Validators.isNonZeroLengthString username "username"
    Validators.isAlnumString username "username"
    let users0 ← ChatDAO.findUserByUsername username none st
    match users0 with
    | [] => .ok (none, st)
    | u :: _ =>
        if jsDateOf u.loggedInUntil < now then .ok (none, st)
        else .ok (some u, st) :
      Except JsError (Option UserDTO × Store)) = _
  rw [isNonZeroLengthString_ok hu1, ok_bind, isAlnumString_ok hu2, ok_bind,
    findUserByUsername_spec hu1 hu2 hv, ok_bind]
  cases hm : matchingUsers st username with
  | nil => rfl
  | cons r rest =>
      rw [List.map_cons]
      by_cases hc : jsDateOf r.loggedInUntil < now
      · simp only [UserRow.toDto, hc, if_true, if_pos hc]
      · simp only [UserRow.toDto, hc, if_false, if_neg hc]

/-- C4 counterexample — a user whose `loggedInUntil` equals the current
time exactly: `isLoggedIn` returns the user although `loggedInUntil` is
not strictly greater than the current time (the code tests
`loginExpires < now`, so equality still counts as logged in). -/
theorem isLoggedIn_boundary_counterexample :
    (Controller.isLoggedIn "alice" 1000 none
        ⟨[⟨1, "alice", some 1000, 0, 0, none⟩], [], 2, 1⟩).1 =
      .ok (some ⟨1, "alice", some 1000, 0, 0, none⟩) ∧
    ¬(1000 < jsDateOf (some (1000 : Time))) := by
  decide

/-- C4 (amended) — on a healthy store and a valid username, `isLoggedIn`
returns a user exactly when a non-deleted row with that username exists
(the first such row) and its `loggedInUntil` is greater than **or equal
to** the current time; it returns null when no such user exists or the
session has expired (`loggedInUntil < now`). -/
theorem isLoggedIn_characterization {username : String} {now : Time}
    {st : Store} (hu1 : 0 < username.length)
    (hu2 : username.data.all Char.isAlphanum = true)
    (hv : ∀ r ∈ matchingUsers st username, r.dtoValid) (u : UserDTO) :
    ((Controller.isLoggedIn username now none st).1 = .ok (some u)) ↔
      (∃ r rest, matchingUsers st username = r :: rest ∧ u = r.toDto ∧
        now ≤ jsDateOf r.loggedInUntil) := by
  rw [isLoggedIn_run hu1 hu2 hv]
  cases hm : matchingUsers st username with
  | nil =>
      simp only []
      constructor
      · intro h
        exact absurd (Except.ok.inj h) (by simp)
      · rintro ⟨r, rest, hr, -, -⟩
        cases hr
  | cons r rest =>
      simp only []
      by_cases hc : jsDateOf r.loggedInUntil < now
      · rw [if_pos hc]
        constructor
        · intro h
          exact absurd (Except.ok.inj h) (by simp)
        · rintro ⟨r', rest', hr', -, hle⟩
          obtain ⟨rfl, -⟩ := List.cons.inj hr'
          exact absurd hle (not_le.mpr hc)
      · rw [if_neg hc]
        constructor
        · intro h
          have := Except.ok.inj h
          exact ⟨r, rest, rfl, (Option.some.inj this).symm, not_lt.mp hc⟩
        · rintro ⟨r', rest', hr', hu, -⟩
          obtain ⟨rfl, -⟩ := List.cons.inj hr'
          rw [hu]

/-- Witness for C4's amended theorem: a live session is reported, and at
the concrete store the characterization's right side holds. -/
theorem isLoggedIn_characterization_witness :
    (Controller.isLoggedIn "alice" 900 none
        ⟨[⟨1, "alice", some 1000, 0, 0, none⟩], [], 2, 1⟩).1 =
      .ok (some ⟨1, "alice", some 1000, 0, 0, none⟩) :=
  (isLoggedIn_characterization (by decide) (by decide)
      (by decide) ⟨1, "alice", some 1000, 0, 0, none⟩).mpr
    ⟨⟨1, "alice", some 1000, 0, 0, none⟩, [], by decide, by decide, by decide⟩

theorem updatedUsers_no_match (u : UserDTO) (now : Time) (l : List UserRow)
    (h : ∀ r ∈ l, r.id ≠ u.id) : updatedUsers u now l = l := by
  unfold updatedUsers
  induction l with
  | nil => rfl
  | cons r l ih =>
      rw [List.map_cons]
      have hr : (r.id == u.id) = false :=
        beq_eq_false_iff_ne.mpr (h r (List.mem_cons_self r l))
      rw [hr]
      simp only [Bool.false_eq_true, if_false]
      rw [ih (fun x hx => h x (List.mem_cons_of_mem r hx))]

/-- `Controller.login` when no non-deleted user with the username exists:
creates the row, extends its session, and returns the fresh DTO. -/
theorem login_first_spec (now : Time) {username : String} {st : Store}
    (hu1 : 0 < username.length)
    (hu2 : username.data.all Char.isAlphanum = true)
    (hnone : matchingUsers st username = [])
    (hid : 0 < st.nextUserId)
    (hfresh : ∀ r ∈ st.users, r.id ≠ st.nextUserId) :
    Controller.login username now none none none st =
      (.ok ⟨st.nextUserId, username, some (now + msPerDay), now, now, none⟩,
        { st with
          users := st.users ++
            [⟨st.nextUserId, username, some (now + msPerDay), now, now,
              none⟩],
          nextUserId := st.nextUserId + 1 }) := by
  unfold Controller.login
  apply transact_ok
  show (do
    Validators.isNonZeroLengthString username "username"
    Validators.isAlnumString username "username"
    let users0 ← ChatDAO.findUserByUsername username none st
    match users0 with
    | [] => do
        let (newUser, st1) ← ChatDAO.createUser username now none st
        Controller.setUsersStatusToLoggedIn newUser now none st1
    | u :: _ => Controller.setUsersStatusToLoggedIn u now none st :
      Except JsError (UserDTO × Store)) = _
  rw [isNonZeroLengthString_ok hu1, ok_bind, isAlnumString_ok hu2, ok_bind,
    findUserByUsername_spec hu1 hu2 (by rw [hnone]; intro r hr; cases hr),
    hnone, List.map_nil, ok_bind]
  rw [show (match ([] : List UserDTO) with
    | [] => do
        let (newUser, st1) ← ChatDAO.createUser username now none st
        Controller.setUsersStatusToLoggedIn newUser now none st1
    | u :: _ => Controller.setUsersStatusToLoggedIn u now none st :
      Except JsError (UserDTO × Store)) = do
        let (newUser, st1) ← ChatDAO.createUser username now none st
        Controller.setUsersStatusToLoggedIn newUser now none st1 from rfl]
  rw [createUser_spec now hu1 hu2 hid, ok_bind]
  show Controller.setUsersStatusToLoggedIn
      (freshUserRow st username now).toDto now none
      { st with users := st.users ++ [freshUserRow st username now],
                nextUserId := st.nextUserId + 1 } = _
  rw [setUsersStatusToLoggedIn_spec]
  have husers : updatedUsers
      ({ (freshUserRow st username now).toDto with
        loggedInUntil := some (now + msPerDay) }) now
      (st.users ++ [freshUserRow st username now]) =
      st.users ++
        [⟨st.nextUserId, username, some (now + msPerDay), now, now, none⟩] := by
    unfold updatedUsers
    rw [List.map_append]
    have h1 : st.users.map (fun r =>
        if r.id == ({ (freshUserRow st username now).toDto with
          loggedInUntil := some (now + msPerDay) } : UserDTO).id then
          { r with
            username := ({ (freshUserRow st username now).toDto with
              loggedInUntil := some (now + msPerDay) } : UserDTO).username,
            loggedInUntil := ({ (freshUserRow st username now).toDto with
              loggedInUntil := some (now + msPerDay) } : UserDTO).loggedInUntil,
            updatedAt := now }
        else r) = st.users := by
      have := updatedUsers_no_match
        ({ (freshUserRow st username now).toDto with
          loggedInUntil := some (now + msPerDay) }) now st.users
        (by
          intro r hr
          simpa [freshUserRow, UserRow.toDto] using hfresh r hr)
      simpa [updatedUsers] using this
    rw [h1]
    simp [freshUserRow, UserRow.toDto]
  rw [husers]
  simp [freshUserRow, UserRow.toDto]

/-- `Controller.login` when a non-deleted user with the username already
exists: no row is created; the first matching row's session is extended
and its DTO returned. -/
theorem login_existing_spec (now : Time) {username : String} {st : Store}
    (hu1 : 0 < username.length)
    (hu2 : username.data.all Char.isAlphanum = true)
    {r : UserRow} {rest : List UserRow}
    (hmatch : matchingUsers st username = r :: rest)
    (hv : ∀ x ∈ matchingUsers st username, x.dtoValid) :
    Controller.login username now none none none st =
      (.ok ({ r.toDto with loggedInUntil := some (now + msPerDay) }),
        { st with users := (updatedUsers
            ({ r.toDto with loggedInUntil := some (now + msPerDay) }) now
            st.users) }) := by
  unfold Controller.login
  apply transact_ok
  show (do
    Validators.isNonZeroLengthString username "username"
    Validators.isAlnumString username "username"
    let users0 ← ChatDAO.findUserByUsername username none st
    match users0 with
    | [] => do
        let (newUser, st1) ← ChatDAO.createUser username now none st
        Controller.setUsersStatusToLoggedIn newUser now none st1
    | u :: _ => Controller.setUsersStatusToLoggedIn u now none st :
      Except JsError (UserDTO × Store)) = _
  rw [isNonZeroLengthString_ok hu1, ok_bind, isAlnumString_ok hu2, ok_bind,
    findUserByUsername_spec hu1 hu2 hv, hmatch, List.map_cons, ok_bind]
  rw [show (match r.toDto :: rest.map UserRow.toDto with
    | [] => do
        let (newUser, st1) ← ChatDAO.createUser username now none st
        Controller.setUsersStatusToLoggedIn newUser now none st1
    | u :: _ => Controller.setUsersStatusToLoggedIn u now none st :
      Except JsError (UserDTO × Store)) =
    Controller.setUsersStatusToLoggedIn r.toDto now none st from rfl]
  rw [setUsersStatusToLoggedIn_spec]

/-- C2 — `login(username)` on a healthy store with no non-deleted user of
that name: the first call creates the user and returns a DTO whose
username is the argument and whose `loggedInUntil` is now + 24 hours; the
row with the extended session is persisted; a second call returns the same
id (`st.nextUserId`, the id assigned by the first call) with a refreshed
`loggedInUntil` of its own call time + 24 hours. -/
theorem login_auto_register_and_refresh (username : String)
    (now now2 : Time) (st : Store) (hu1 : 0 < username.length)
    (hu2 : username.data.all Char.isAlphanum = true)
    (hnone : matchingUsers st username = [])
    (hid : 0 < st.nextUserId)
    (hfresh : ∀ r ∈ st.users, r.id ≠ st.nextUserId) :
    (Controller.login username now none none none st).1 =
      .ok ⟨st.nextUserId, username, some (now + msPerDay), now, now, none⟩ ∧
    (⟨st.nextUserId, username, some (now + msPerDay), now, now, none⟩ :
        UserRow) ∈ (Controller.login username now none none none st).2.users ∧
    (Controller.login username now2 none none none
        (Controller.login username now none none none st).2).1 =
      .ok ⟨st.nextUserId, username, some (now2 + msPerDay), now, now,
        none⟩ := by
  have h1 := login_first_spec now hu1 hu2 hnone hid hfresh
  have hfilterrow : matchingUsers
      { st with
        users := st.users ++
          [⟨st.nextUserId, username, some (now + msPerDay), now, now, none⟩],
        nextUserId := st.nextUserId + 1 } username =
      [⟨st.nextUserId, username, some (now + msPerDay), now, now, none⟩] := by
    unfold matchingUsers at hnone ⊢
    rw [show ({ st with
        users := st.users ++
          [⟨st.nextUserId, username, some (now + msPerDay), now, now, none⟩],
        nextUserId := st.nextUserId + 1 } : Store).users =
      st.users ++
        [⟨st.nextUserId, username, some (now + msPerDay), now, now, none⟩]
      from rfl]
    rw [List.filter_append, hnone]
    simp
  have hv1 : ∀ x ∈ matchingUsers
      { st with
        users := st.users ++
          [⟨st.nextUserId, username, some (now + msPerDay), now, now, none⟩],
        nextUserId := st.nextUserId + 1 } username, x.dtoValid := by
    rw [hfilterrow]
    intro x hx
    rw [List.mem_singleton] at hx
    subst hx
    exact ⟨hid, hu1⟩
  have h2 := login_existing_spec now2 hu1 hu2 hfilterrow hv1
  refine ⟨?_, ?_, ?_⟩
  · rw [h1]
  · rw [h1]
    exact List.mem_append_right _ (List.mem_singleton.mpr rfl)
  · have hsnd : (Controller.login username now none none none st).2 =
        { st with
          users := st.users ++
            [⟨st.nextUserId, username, some (now + msPerDay), now, now,
              none⟩],
          nextUserId := st.nextUserId + 1 } := by rw [h1]
    rw [hsnd, h2]
    simp [UserRow.toDto]

/-- Witness for C2 with a concrete first-and-second login on an empty
store. -/
theorem login_auto_register_and_refresh_witness :
    (Controller.login "alice" 1000 none none none ⟨[], [], 1, 1⟩).1 =
      .ok ⟨1, "alice", some (1000 + msPerDay), 1000, 1000, none⟩ ∧
    (⟨1, "alice", some (1000 + msPerDay), 1000, 1000, none⟩ : UserRow) ∈
      (Controller.login "alice" 1000 none none none ⟨[], [], 1, 1⟩).2.users ∧
    (Controller.login "alice" 2000 none none none
        (Controller.login "alice" 1000 none none none ⟨[], [], 1, 1⟩).2).1 =
      .ok ⟨1, "alice", some (2000 + msPerDay), 1000, 1000, none⟩ :=
  login_auto_register_and_refresh "alice" 1000 2000 ⟨[], [], 1, 1⟩
    (by decide) (by decide) (by decide) (by decide)
    (by intro r hr; cases hr)

theorem createMsgDto_ok_inv {mr : MsgRow} {a : UserDTO} {d : MsgDTO}
    (h : createMsgDto mr a = .ok d) : d = mr.toDtoWith a := by
  unfold createMsgDto MsgDTO.make at h
  by_cases h1 : 0 < mr.id
  · rw [isPositiveInteger_ok h1, ok_bind] at h
    by_cases h2 : 0 < mr.msg.length
    · rw [isNonZeroLengthString_ok h2, ok_bind] at h
      exact (Except.ok.inj h).symm
    · unfold Validators.isNonZeroLengthString at h
      rw [if_neg h2, error_bind] at h
      cases h
  · unfold Validators.isPositiveInteger at h
    rw [if_neg h1, error_bind] at h
    cases h

theorem findAllPair_ok_id {rw0 : MsgRow × UserRow} {d : MsgDTO}
    (h : (do
        let a ← createUserDto rw0.2
        createMsgDto rw0.1 a : Except JsError MsgDTO) = .ok d) :
    d.id = rw0.1.id := by
  cases hca : createUserDto rw0.2 with
  | error e =>
      rw [hca, error_bind] at h
      cases h
  | ok a =>
      rw [hca, ok_bind] at h
      rw [createMsgDto_ok_inv h]
      rfl

theorem findAllMsgs_controller_ok {e1 : Option BaseError} {st : Store}
    {l : List MsgDTO} (h : (Controller.findAllMsgs e1 st).1 = .ok l) :
    ChatDAO.findAllMsgs e1 st = .ok l := by
  cases hb : ChatDAO.findAllMsgs e1 st with
  | error e =>
      exfalso
      have herr : (Controller.findAllMsgs e1 st).1 = .error e := by
        unfold Controller.findAllMsgs
        apply transact_fst_error
        show (do
          let r ← ChatDAO.findAllMsgs e1 st
          Except.ok (r, st) : Except JsError (List MsgDTO × Store)) = _
        rw [hb, error_bind]
      rw [herr] at h
      cases h
  | ok r =>
      have hok : Controller.findAllMsgs e1 st = (.ok r, st) := by
        unfold Controller.findAllMsgs
        apply transact_ok
        show (do
          let r ← ChatDAO.findAllMsgs e1 st
          Except.ok (r, st) : Except JsError (List MsgDTO × Store)) = _
        rw [hb, ok_bind]
      rw [hok] at h
      exact h

/-- C3 — soft-delete invisibility: for a non-deleted stored message `m`,
after `deleteMsg(m.id)` succeeds, `findMsg(m.id)` returns null and every
message `findAllMsgs` can return has a different id, yet the row survives
in the `msgs` table (same row count) with `deletedAt` set to the deletion
time — it is never hard-deleted. -/
theorem deleteMsg_soft_delete (m : MsgRow) (st : Store) (now : Time)
    (hm : m ∈ st.msgs) (hdel : m.deletedAt = none) (hid : 0 < m.id) :
    (Controller.deleteMsg m.id now none st).1 = .ok () ∧
    ({ m with deletedAt := some now }) ∈
      (Controller.deleteMsg m.id now none st).2.msgs ∧
    (Controller.deleteMsg m.id now none st).2.msgs.length =
      st.msgs.length ∧
    (Controller.findMsg m.id none
      (Controller.deleteMsg m.id now none st).2).1 = .ok none ∧
    (∀ l, (Controller.findAllMsgs none
        (Controller.deleteMsg m.id now none st).2).1 = .ok l →
      ∀ d ∈ l, d.id ≠ m.id) := by
  have hrun : Controller.deleteMsg m.id now none st =
      (.ok (), { st with msgs := st.msgs.map (fun r =>
        if r.id == m.id then { r with deletedAt := some now } else r) }) := by
    unfold Controller.deleteMsg
    apply transact_ok
    show (do
      Validators.isPositiveInteger m.id "msgId"
      let (_, st1) ← ChatDAO.deleteMsg m.id now none st
      Except.ok ((), st1) : Except JsError (Unit × Store)) = _
    rw [isPositiveInteger_ok hid, ok_bind, deleteMsg_spec hid, ok_bind]
  have hfilter : ∀ (p : MsgRow → Bool), (∀ r, p r = (r.id == m.id)) →
      (st.msgs.map (fun r =>
        if r.id == m.id then { r with deletedAt := some now } else r)).filter
        (fun r => r.deletedAt == none && p r) = [] := by
    intro p hp
    rw [List.filter_eq_nil_iff]
    intro a ha
    rw [List.mem_map] at ha
    obtain ⟨r, hr, rfl⟩ := ha
    by_cases hidm : (r.id == m.id) = true
    · rw [hidm]
      simp [hp]
    · rw [Bool.not_eq_true] at hidm
      rw [hidm]
      simp only [Bool.false_eq_true, if_false, Bool.and_eq_true]
      rintro ⟨-, hpr⟩
      rw [hp] at hpr
      rw [hidm] at hpr
      cases hpr
  have hjoin : joinMsgsUsers ({ st with msgs := st.msgs.map (fun r =>
      if r.id == m.id then { r with deletedAt := some now } else r) })
      (fun r => r.id == m.id) = [] := by
    unfold joinMsgsUsers
    rw [show ({ st with msgs := st.msgs.map (fun r =>
      if r.id == m.id then { r with deletedAt := some now } else r) } :
        Store).msgs = st.msgs.map (fun r =>
      if r.id == m.id then { r with deletedAt := some now } else r)
      from rfl]
    rw [hfilter _ (fun r => rfl)]
    rfl
  refine ⟨by rw [hrun], ?_, by rw [hrun]; exact List.length_map .., ?_, ?_⟩
  · rw [hrun]
    have := List.mem_map_of_mem (fun r =>
      if r.id == m.id then { r with deletedAt := some now } else r) hm
    simpa using this
  · rw [hrun]
    unfold Controller.findMsg
    have hfind : ChatDAO.findMsgById m.id none
        ({ st with msgs := st.msgs.map (fun r =>
          if r.id == m.id then { r with deletedAt := some now } else r) }) =
        .ok none := findMsgById_none hid hjoin
    rw [show (transact ({ st with msgs := st.msgs.map (fun r =>
        if r.id == m.id then { r with deletedAt := some now } else r) })
        (fun st0 => do
          Validators.isPositiveInteger m.id "msgId"
          let r ← ChatDAO.findMsgById m.id none st0
          Except.ok (r, st0))).1 = .ok none from by
      apply congrArg Prod.fst ∘ transact_ok _ _
      show (do
        Validators.isPositiveInteger m.id "msgId"
        let r ← ChatDAO.findMsgById m.id none
          ({ st with msgs := st.msgs.map (fun r =>
            if r.id == m.id then { r with deletedAt := some now } else r) })
        Except.ok (r, _) : Except JsError (Option MsgDTO × Store)) = _
      rw [isPositiveInteger_ok hid, ok_bind, hfind, ok_bind]]
  · intro l hl d hd
    rw [hrun] at hl
    have hdao := findAllMsgs_controller_ok hl
    rw [findAllMsgs_spec] at hdao
    have hmap := (wrapErr_ok_iff _ _ _).mp hdao
    obtain ⟨⟨mr, ur⟩, hmem, hf⟩ := mapME_mem hmap hd
    have hdid : d.id = mr.id := findAllPair_ok_id hf
    unfold joinMsgsUsers at hmem
    rw [List.mem_flatMap] at hmem
    obtain ⟨mr', hmr', hpair⟩ := hmem
    rw [List.mem_map] at hpair
    obtain ⟨ur', hur', heq⟩ := hpair
    injection heq with h1 h2
    subst h1
    have hmr'' := List.mem_filter.mp hmr'
    obtain ⟨hmem2, hpred⟩ := hmr''
    rw [show ({ st with msgs := st.msgs.map (fun r =>
        if r.id == m.id then { r with deletedAt := some now } else r) } :
        Store).msgs = st.msgs.map (fun r =>
        if r.id == m.id then { r with deletedAt := some now } else r)
      from rfl] at hmem2
    rw [List.mem_map] at hmem2
    obtain ⟨r0, hr0, hgr⟩ := hmem2
    rw [Bool.and_eq_true] at hpred
    obtain ⟨hpred1, -⟩ := hpred
    by_cases hcase : (r0.id == m.id) = true
    · exfalso
      rw [hcase] at hgr
      simp only [if_true] at hgr
      rw [← hgr] at hpred1
      cases hpred1
    · rw [Bool.not_eq_true] at hcase
      rw [hcase] at hgr
      simp only [Bool.false_eq_true, if_false] at hgr
      rw [hdid, ← hgr]
      intro hcontra
      rw [hcontra] at hcase
      simp at hcase

/-- Witness for C3 at a concrete one-message store. -/
theorem deleteMsg_soft_delete_witness :
    (Controller.deleteMsg 1 50 none
      ⟨[⟨1, "bob", some 0, 0, 0, none⟩], [⟨1, "hello", 1, 0, 0, none⟩],
        2, 2⟩).1 = .ok () ∧
    (⟨1, "hello", 1, 0, 0, some 50⟩ : MsgRow) ∈
      (Controller.deleteMsg 1 50 none
        ⟨[⟨1, "bob", some 0, 0, 0, none⟩], [⟨1, "hello", 1, 0, 0, none⟩],
          2, 2⟩).2.msgs ∧
    (Controller.deleteMsg 1 50 none
      ⟨[⟨1, "bob", some 0, 0, 0, none⟩], [⟨1, "hello", 1, 0, 0, none⟩],
        2, 2⟩).2.msgs.length = 1 ∧
    (Controller.findMsg 1 none (Controller.deleteMsg 1 50 none
      ⟨[⟨1, "bob", some 0, 0, 0, none⟩], [⟨1, "hello", 1, 0, 0, none⟩],
        2, 2⟩).2).1 = .ok none := by
  have h := deleteMsg_soft_delete ⟨1, "hello", 1, 0, 0, none⟩
    ⟨[⟨1, "bob", some 0, 0, 0, none⟩], [⟨1, "hello", 1, 0, 0, none⟩], 2, 2⟩
    50 (by decide) (by decide) (by decide)
  exact ⟨h.1, h.2.1, h.2.2.1, h.2.2.2.1⟩

/-- C7 — the frame property of `updateUser`: it never throws, leaves the
msgs table, both id counters and the row count untouched, and rewrites
each users row positionally — a row whose id differs from `user.id` is
wholly unchanged, a row whose id matches keeps its `id`, `createdAt` and
`deletedAt` and receives the DTO's `username` and `loggedInUntil` plus a
bumped `updatedAt`; when no row matches, the store is unchanged. -/
theorem updateUser_frame (u : UserDTO) (now : Time) (st : Store) :
    ∃ st', ChatDAO.updateUser (.userDto u) now none st = .ok ((), st') ∧
      st'.msgs = st.msgs ∧ st'.nextUserId = st.nextUserId ∧
      st'.nextMsgId = st.nextMsgId ∧
      st'.users.length = st.users.length ∧
      (∀ i (h : i < st.users.length) (h' : i < st'.users.length),
        (st'.users.get ⟨i, h'⟩).id = (st.users.get ⟨i, h⟩).id ∧
        (st'.users.get ⟨i, h'⟩).createdAt =
          (st.users.get ⟨i, h⟩).createdAt ∧
        (st'.users.get ⟨i, h'⟩).deletedAt =
          (st.users.get ⟨i, h⟩).deletedAt ∧
        ((st.users.get ⟨i, h⟩).id ≠ u.id →
          st'.users.get ⟨i, h'⟩ = st.users.get ⟨i, h⟩) ∧
        ((st.users.get ⟨i, h⟩).id = u.id →
          st'.users.get ⟨i, h'⟩ =
            ⟨(st.users.get ⟨i, h⟩).id, u.username, u.loggedInUntil,
              (st.users.get ⟨i, h⟩).createdAt, now,
              (st.users.get ⟨i, h⟩).deletedAt⟩)) ∧
      ((∀ r ∈ st.users, r.id ≠ u.id) → st' = st) := by
  refine ⟨{ st with users := updatedUsers u now st.users },
    updateUser_spec u now st, rfl, rfl, rfl, ?_, ?_, ?_⟩
  · exact List.length_map ..
  · intro i h h'
    have hget : ({ st with users := updatedUsers u now st.users } :
        Store).users.get ⟨i, h'⟩ =
        (fun r => if r.id == u.id then
          { r with username := u.username, loggedInUntil := u.loggedInUntil,
                   updatedAt := now }
        else r) (st.users.get ⟨i, h⟩) := by
      exact List.getElem_map _
    rw [hget]
    by_cases hc : st.users[i].id = u.id <;> simp [hc]
  · intro hnone
    have : updatedUsers u now st.users = st.users :=
      updatedUsers_no_match u now st.users hnone
    rw [this]

/-- Witness for C7 at a concrete two-row store where only the matching row
changes. -/
theorem updateUser_frame_witness :
    ∃ st', ChatDAO.updateUser
        (.userDto ⟨2, "carol", some 99, 0, 0, none⟩) 7 none
        ⟨[⟨1, "bob", some 0, 1, 2, none⟩, ⟨2, "bo", some 0, 3, 4, some 5⟩],
          [], 3, 1⟩ = .ok ((), st') ∧
      st'.msgs = [] ∧ st'.nextUserId = 3 ∧ st'.nextMsgId = 1 ∧
      st'.users.length = 2 := by
  obtain ⟨st', h1, h2, h3, h4, h5, -, -⟩ := updateUser_frame
    ⟨2, "carol", some 99, 0, 0, none⟩ 7
    ⟨[⟨1, "bob", some 0, 1, 2, none⟩, ⟨2, "bo", some 0, 3, 4, some 5⟩],
      [], 3, 1⟩
  exact ⟨st', h1, h2, h3, h4, h5⟩

/-- C9 — for a valid username on a healthy store, `findUserByUsername`
returns (never null, by type) the DTOs of exactly the rows whose username
matches and whose `deletedAt` is null, in store order; in particular the
empty list when no such row exists. -/
theorem findUserByUsername_exact (username : String) (st : Store)
    (hu1 : 0 < username.length)
    (hu2 : username.data.all Char.isAlphanum = true)
    (hv : ∀ r ∈ st.users.filter
      (fun r => r.username == username && r.deletedAt == none),
      r.dtoValid) :
    ChatDAO.findUserByUsername username none st =
      .ok ((st.users.filter
        (fun r => r.username == username && r.deletedAt == none)).map
        UserRow.toDto) :=
  findUserByUsername_spec hu1 hu2 hv

/-- Witness for C9: one live match among a soft-deleted namesake and an
unrelated user; also the no-match case yielding the empty list. -/
theorem findUserByUsername_exact_witness :
    ChatDAO.findUserByUsername "bob" none
      ⟨[⟨1, "bob", some 0, 0, 0, none⟩, ⟨2, "bob", some 0, 0, 0, some 9⟩,
        ⟨3, "amy", some 0, 0, 0, none⟩], [], 4, 1⟩ =
      .ok [⟨1, "bob", some 0, 0, 0, none⟩] ∧
    ChatDAO.findUserByUsername "zoe" none
      ⟨[⟨1, "bob", some 0, 0, 0, none⟩], [], 2, 1⟩ = .ok [] := by
  constructor
  · rw [findUserByUsername_exact "bob" _ (by decide) (by decide) (by decide)]
    rfl
  · rw [findUserByUsername_exact "zoe" _ (by decide) (by decide) (by decide)]
    rfl

/-- C6 — `createMsg(text, author)` inserts a row referencing `author.id`
and returns the DTO built from that row and the caller-supplied author DTO
itself (no re-fetch); `findMsgById` on the new id then returns a DTO with
the same text and an author whose id equals `author.id` (the author there
being re-read from the store through the join). -/
theorem createMsg_roundtrip (text : String) (author : UserDTO) (now : Time)
    (st : Store) (ht : 0 < text.length) (hid : 0 < st.nextMsgId)
    (urow : UserRow) (urest : List UserRow)
    (hufilter : st.users.filter (fun u => u.id == author.id) =
      urow :: urest)
    (hurv : urow.dtoValid)
    (hfresh : ∀ r ∈ st.msgs, r.id ≠ st.nextMsgId) :
    ChatDAO.createMsg text (.userDto author) now none st =
      .ok ((freshMsgRow st text author.id now).toDtoWith author,
        { st with msgs := st.msgs ++ [freshMsgRow st text author.id now],
                  nextMsgId := st.nextMsgId + 1 }) ∧
    ((freshMsgRow st text author.id now).toDtoWith author).author =
      author ∧
    ((freshMsgRow st text author.id now).toDtoWith author).msg = text ∧
    (freshMsgRow st text author.id now).userId = author.id ∧
    ChatDAO.findMsgById
        ((freshMsgRow st text author.id now).toDtoWith author).id none
        { st with msgs := st.msgs ++ [freshMsgRow st text author.id now],
                  nextMsgId := st.nextMsgId + 1 } =
      .ok (some ((freshMsgRow st text author.id now).toDtoWith
        urow.toDto)) ∧
    ((freshMsgRow st text author.id now).toDtoWith urow.toDto).msg =
      text ∧
    ((freshMsgRow st text author.id now).toDtoWith urow.toDto).author.id =
      author.id := by
  have hurowmem : urow ∈ st.users.filter (fun u => u.id == author.id) := by
    rw [hufilter]
    exact List.mem_cons_self ..
  have hurowpred := List.mem_filter.mp hurowmem
  have huid : urow.id = author.id := beq_iff_eq.mp hurowpred.2
  have hfk : st.users.any (fun u => u.id == author.id) = true :=
    List.any_eq_true.mpr ⟨urow, hurowpred.1, hurowpred.2⟩
  have hfilterold : ∀ (p : MsgRow → Bool),
      (∀ r, p r = (r.id == st.nextMsgId)) →
      st.msgs.filter (fun r => r.deletedAt == none && p r) = [] := by
    intro p hp
    rw [List.filter_eq_nil_iff]
    intro r hr
    rw [Bool.and_eq_true, hp]
    rintro ⟨-, hcontra⟩
    exact hfresh r hr (beq_iff_eq.mp hcontra)
  have hjoin : joinMsgsUsers
      { st with msgs := st.msgs ++ [freshMsgRow st text author.id now],
                nextMsgId := st.nextMsgId + 1 }
      (fun r => r.id == st.nextMsgId) =
      (freshMsgRow st text author.id now, urow) ::
        urest.map (fun ur => (freshMsgRow st text author.id now, ur)) := by
    unfold joinMsgsUsers
    rw [show ({ st with
        msgs := st.msgs ++ [freshMsgRow st text author.id now],
        nextMsgId := st.nextMsgId + 1 } : Store).msgs =
      st.msgs ++ [freshMsgRow st text author.id now] from rfl]
    rw [List.filter_append, hfilterold _ (fun r => rfl)]
    rw [show ([freshMsgRow st text author.id now]).filter
        (fun r => r.deletedAt == none &&
          (fun r => r.id == st.nextMsgId) r) =
        [freshMsgRow st text author.id now] from by
      simp [freshMsgRow]]
    rw [List.nil_append, List.flatMap_cons, List.flatMap_nil,
      List.append_nil]
    rw [show ({ st with
        msgs := st.msgs ++ [freshMsgRow st text author.id now],
        nextMsgId := st.nextMsgId + 1 } : Store).users = st.users from rfl]
    simp only [show (freshMsgRow st text author.id now).userId = author.id
      from rfl]
    rw [hufilter, List.map_cons]
  refine ⟨createMsg_spec now ht hfk hid, rfl, rfl, rfl, ?_, rfl, ?_⟩
  · show ChatDAO.findMsgById st.nextMsgId none _ = _
    exact findMsgById_some hid hjoin hurv ⟨hid, ht⟩
  · show (urow.toDto).id = author.id
    rw [show (urow.toDto).id = urow.id from rfl]
    exact huid

/-- Witness for C6 with a concrete author and empty message table. -/
theorem createMsg_roundtrip_witness :
    ChatDAO.createMsg "hello" (.userDto ⟨1, "bob", some 0, 0, 0, none⟩) 9
        none ⟨[⟨1, "bob", some 0, 0, 0, none⟩], [], 2, 1⟩ =
      .ok (⟨1, ⟨1, "bob", some 0, 0, 0, none⟩, "hello", 9, 9, none⟩,
        ⟨[⟨1, "bob", some 0, 0, 0, none⟩], [⟨1, "hello", 1, 9, 9, none⟩],
          2, 2⟩) ∧
    ChatDAO.findMsgById 1 none
        ⟨[⟨1, "bob", some 0, 0, 0, none⟩], [⟨1, "hello", 1, 9, 9, none⟩],
          2, 2⟩ =
      .ok (some ⟨1, ⟨1, "bob", some 0, 0, 0, none⟩, "hello", 9, 9,
        none⟩) := by
  have h := createMsg_roundtrip "hello" ⟨1, "bob", some 0, 0, 0, none⟩ 9
    ⟨[⟨1, "bob", some 0, 0, 0, none⟩], [], 2, 1⟩ (by decide) (by decide)
    ⟨1, "bob", some 0, 0, 0, none⟩ [] (by decide)
    (by decide) (by intro r hr; cases hr)
  exact ⟨h.1, h.2.2.2.2.1⟩

/-- C10 — the message reads filter `deletedAt` only on the message side of
the join: a non-deleted message whose author row is soft-deleted is still
returned by `findMsgById`, with the author DTO built from the soft-deleted
user row (whose `deletedAt` is visible on the DTO), and the same DTO
appears in any successful `findAllMsgs` result. -/
theorem softDeletedAuthor_surfaces (st : Store) (mrow : MsgRow)
    (urow : UserRow) (mrest : List MsgRow) (urest : List UserRow) (d : Time)
    (hid : 0 < mrow.id)
    (hmfilter : st.msgs.filter
      (fun r => r.deletedAt == none && r.id == mrow.id) = mrow :: mrest)
    (hufilter : st.users.filter (fun ur => ur.id == mrow.userId) =
      urow :: urest)
    (hdel : urow.deletedAt = some d)
    (hurv : urow.dtoValid) (hmrv : mrow.dtoValid) :
    ChatDAO.findMsgById mrow.id none st =
      .ok (some (mrow.toDtoWith urow.toDto)) ∧
    (mrow.toDtoWith urow.toDto).author.deletedAt = some d ∧
    (∀ l, ChatDAO.findAllMsgs none st = .ok l →
      mrow.toDtoWith urow.toDto ∈ l) := by
  have hmmem : mrow ∈ st.msgs.filter
      (fun r => r.deletedAt == none && r.id == mrow.id) := by
    rw [hmfilter]
    exact List.mem_cons_self ..
  have hmpred := List.mem_filter.mp hmmem
  have humem : urow ∈ st.users.filter (fun ur => ur.id == mrow.userId) := by
    rw [hufilter]
    exact List.mem_cons_self ..
  have hupred := List.mem_filter.mp humem
  have hjoin : joinMsgsUsers st (fun r => r.id == mrow.id) =
      (mrow, urow) ::
        (urest.map (fun ur => (mrow, ur)) ++
          mrest.flatMap (fun mr =>
            (st.users.filter (fun ur => ur.id == mr.userId)).map
              (fun ur => (mr, ur)))) := by
    unfold joinMsgsUsers
    rw [hmfilter, List.flatMap_cons, hufilter, List.map_cons]
    rfl
  refine ⟨findMsgById_some hid hjoin hurv hmrv, ?_, ?_⟩
  · show (urow.toDto).deletedAt = some d
    rw [show (urow.toDto).deletedAt = urow.deletedAt from rfl]
    exact hdel
  · intro l hl
    rw [findAllMsgs_spec] at hl
    have hmap := (wrapErr_ok_iff _ _ _).mp hl
    have hpairmem : (mrow, urow) ∈ joinMsgsUsers st (fun _ => true) := by
      unfold joinMsgsUsers
      rw [List.mem_flatMap]
      refine ⟨mrow, ?_, ?_⟩
      · rw [List.mem_filter]
        refine ⟨hmpred.1, ?_⟩
        rw [Bool.and_eq_true] at hmpred ⊢
        exact ⟨hmpred.2.1, rfl⟩
      · rw [List.mem_map]
        exact ⟨urow, hupred.1 |> fun hm => by
          rw [List.mem_filter]; exact ⟨hm, hupred.2⟩, rfl⟩
    have hfpair : (do
        let a ← createUserDto (mrow, urow).2
        createMsgDto (mrow, urow).1 a : Except JsError MsgDTO) =
        .ok (mrow.toDtoWith urow.toDto) := by
      rw [show createUserDto (mrow, urow).2 = createUserDto urow from rfl,
        createUserDto_eq hurv, ok_bind]
      exact createMsgDto_eq hmrv urow.toDto
    exact mapME_mem_of hmap hpairmem hfpair

/-- Witness for C10: one non-deleted message whose author row carries a
`deletedAt` timestamp. -/
theorem softDeletedAuthor_surfaces_witness :
    ChatDAO.findMsgById 1 none
      ⟨[⟨1, "bob", some 0, 0, 0, some 5⟩], [⟨1, "hi", 1, 0, 0, none⟩],
        2, 2⟩ =
      .ok (some ⟨1, ⟨1, "bob", some 0, 0, 0, some 5⟩, "hi", 0, 0, none⟩) ∧
    (⟨1, ⟨1, "bob", some 0, 0, 0, some 5⟩, "hi", 0, 0, none⟩ :
      MsgDTO).author.deletedAt = some 5 := by
  have h := softDeletedAuthor_surfaces
    ⟨[⟨1, "bob", some 0, 0, 0, some 5⟩], [⟨1, "hi", 1, 0, 0, none⟩], 2, 2⟩
    ⟨1, "hi", 1, 0, 0, none⟩ ⟨1, "bob", some 0, 0, 0, some 5⟩ [] [] 5
    (by decide) (by decide) (by decide) (by decide) (by decide) (by decide)
  exact ⟨h.1, h.2.1⟩
